import Mathlib

/-!
Shallow embedding of the `SavingsPool` contract (native-token savings pool,
simple interest in basis points) and its companion `ReceiptNFT` contract
(ERC-721 receipts, mint/burn restricted to the pool).

Conventions of the embedding:
* machine integers (`uint256`, `uint128`, `uint64`) are `Nat` with explicit
  `% 2 ^ w` at the places the Solidity source truncates (the explicit casts
  `uint128(amount)` and `uint64(block.timestamp)`), and explicit bound checks
  where Solidity 0.8 checked arithmetic would revert (`Panic 0x11`);
* a reverting call is `Except.error e`; since a revert rolls the whole
  transaction back, an `Except.error` result carries no state;
* external calls made by the pool through the `IReceiptNFT` interface and the
  low-level value transfer appear as oracle parameters (`certOwner`,
  `burnOk`, `transferOk`, `mintOk`): the pool only observes whether they
  succeed and, for `ownerOf`, which address they return;
* `block.timestamp` and `msg.sender` / `msg.value` are explicit arguments
  (`now`, `caller`, `amount`).
-/

namespace SavingsPool

/-- Addresses are modelled as naturals; `0` is the zero address. -/
abbrev Address := Nat

/-- `2 ^ 256`, the bound of Solidity `uint256` arithmetic. -/
def U256 : Nat := 2 ^ 256

/-- `2 ^ 128`, the bound of the `uint128 principal` field. -/
def U128 : Nat := 2 ^ 128

/-- `2 ^ 64`, the bound of the `uint64 start` field. -/
def U64 : Nat := 2 ^ 64

/-- `365 days * 10000`, the denominator of the interest formula. -/
def yearBps : Nat := 31536000 * 10000

/-- The `Position` struct: `uint128 principal`, `uint64 start`, `bool active`. -/
structure Position where
  principal : Nat
  start : Nat
  active : Bool
  deriving Repr, DecidableEq

/-- A Solidity mapping returns the all-zero struct for an unset key. -/
def defaultPosition : Position := ⟨0, 0, false⟩

/-- The events declared by `SavingsPool`. -/
inductive PoolEvent where
  | deposited (tokenId : Nat) (owner : Address) (amount : Nat)
  | withdrawn (tokenId : Nat) (owner : Address) (payout : Nat)
  | aprUpdated (oldBps newBps : Nat)
  deriving Repr, DecidableEq

/-- Revert reasons of the pool: the `require` strings `"!active"`,
`"!owner"`, `"amount=0"`, `"apr too high"`, Ownable's
`"caller is not the owner"`, `"xfer failed"`, a revert bubbled up from the
receipt contract, and the checked-arithmetic panics. -/
inductive PoolErr where
  | notActive
  | notOwner
  | zeroAmount
  | aprTooHigh
  | callerNotAdmin
  | transferFailed
  | externalCallFailed
  | arithUnderflow
  | arithOverflow
  deriving Repr, DecidableEq

/-- Storage of `SavingsPool`: admin (`Ownable` owner), `aprBps`, `nextId`,
the `positions` mapping, and the emitted event log. -/
structure PoolState where
  owner : Address
  aprBps : Nat
  nextId : Nat
  positions : Nat → Position
  events : List PoolEvent

/-- `accrued(tokenId)`:
`require(p.active, "!active")`, then
`(uint256(p.principal) * aprBps * (block.timestamp - p.start)) / (365 days * 10000)`.
The subtraction and the two multiplications are Solidity 0.8 checked
arithmetic, hence the underflow/overflow branches. -/
def accrued (s : PoolState) (now tokenId : Nat) : Except PoolErr Nat :=
  if (s.positions tokenId).active = false then .error .notActive
  else if now < (s.positions tokenId).start then .error .arithUnderflow
  else if U256 ≤ (s.positions tokenId).principal * s.aprBps then .error .arithOverflow
  else if U256 ≤ (s.positions tokenId).principal * s.aprBps * (now - (s.positions tokenId).start)
    then .error .arithOverflow
  else .ok ((s.positions tokenId).principal * s.aprBps * (now - (s.positions tokenId).start) / yearBps)

/-- `payoutOf(tokenId)`: `require(p.active, "!active")`, then
`uint256(p.principal) + accrued(tokenId)` (checked addition). -/
def payoutOf (s : PoolState) (now tokenId : Nat) : Except PoolErr Nat :=
  if (s.positions tokenId).active = false then .error .notActive
  else
    match accrued s now tokenId with
    | .error e => .error e
    | .ok intr =>
      if U256 ≤ (s.positions tokenId).principal + intr then .error .arithOverflow
      else .ok ((s.positions tokenId).principal + intr)

/-- The storage writes of `_depositWithURI`: `tokenId = ++nextId` and
`positions[tokenId] = Position(uint128(amount), uint64(block.timestamp), true)`. -/
def mintPosition (s : PoolState) (amount now : Nat) : PoolState :=
  { s with
    nextId := s.nextId + 1
    positions := fun i =>
      if i = s.nextId + 1 then ⟨amount % U128, now % U64, true⟩ else s.positions i }

/-- `_depositWithURI(uri)` with `amount = msg.value`:
`require(amount > 0, "amount=0")`; `tokenId = ++nextId` (checked increment);
write the position; `receipt.mint(msg.sender, tokenId, uri)` (external call,
abstracted by `mintOk`; the `uri` string is only forwarded there);
`emit Deposited(tokenId, msg.sender, amount)`. Returns the new state and the
returned `tokenId`. -/
def depositWithURI (s : PoolState) (caller : Address) (amount now : Nat) (mintOk : Bool) :
    Except PoolErr (PoolState × Nat) :=
  if amount = 0 then .error .zeroAmount
  else if U256 ≤ s.nextId + 1 then .error .arithOverflow
  else if mintOk = false then .error .externalCallFailed
  else .ok
    ({ mintPosition s amount now with
       events := s.events ++ [.deposited (s.nextId + 1) caller amount] },
     s.nextId + 1)

/-- The single storage write `p.active = false` performed by `withdraw`. -/
def closePosition (s : PoolState) (tokenId : Nat) : PoolState :=
  { s with
    positions := fun i =>
      if i = tokenId then { s.positions tokenId with active := false } else s.positions i }

/-- `withdraw(tokenId)`:
`require(p.active, "!active")`;
`require(receipt.ownerOf(tokenId) == msg.sender, "!owner")` (external call,
`certOwner` is its outcome);
`p.active = false`;
`pay = uint256(p.principal) + accrued(tokenId)` — note that this internal
call to `accrued` reads the already-updated storage (`closePosition`);
`receipt.burn(tokenId)` (abstracted by `burnOk`);
`msg.sender.call{value: pay}("")` with `require(ok, "xfer failed")`
(abstracted by `transferOk`);
`emit Withdrawn(tokenId, msg.sender, pay)`. -/
def withdraw (s : PoolState) (caller : Address) (now tokenId : Nat)
    (certOwner : Except Unit Address) (burnOk transferOk : Bool) :
    Except PoolErr PoolState :=
  if (s.positions tokenId).active = false then .error .notActive
  else
    match certOwner with
    | .error _ => .error .externalCallFailed
    | .ok o =>
      if o ≠ caller then .error .notOwner
      else
        match accrued (closePosition s tokenId) now tokenId with
        | .error e => .error e
        | .ok intr =>
          if U256 ≤ (s.positions tokenId).principal + intr then .error .arithOverflow
          else if burnOk = false then .error .externalCallFailed
          else if transferOk = false then .error .transferFailed
          else .ok
            { closePosition s tokenId with
              events := s.events ++
                [.withdrawn tokenId caller ((s.positions tokenId).principal + intr)] }

/-- `setApr(bps)`: the `onlyOwner` modifier runs first, then
`require(bps <= 5000, "apr too high")`, then the write and
`emit AprUpdated(old, bps)`. -/
def setApr (s : PoolState) (caller : Address) (bps : Nat) : Except PoolErr PoolState :=
  if caller ≠ s.owner then .error .callerNotAdmin
  else if 5000 < bps then .error .aprTooHigh
  else .ok { s with aprBps := bps, events := s.events ++ [.aprUpdated s.aprBps bps] }

/-- The state-changing entry points of the pool, with their oracle inputs. -/
inductive Op where
  | depositOp (caller : Address) (amount now : Nat) (mintOk : Bool)
  | withdrawOp (caller : Address) (now tokenId : Nat)
      (certOwner : Except Unit Address) (burnOk transferOk : Bool)
  | setAprOp (caller : Address) (bps : Nat)

/-- One transaction against the pool. -/
def applyOp (s : PoolState) : Op → Except PoolErr PoolState
  | .depositOp c a n mo => (depositWithURI s c a n mo).map Prod.fst
  | .withdrawOp c n t co bo tr => withdraw s c n t co bo tr
  | .setAprOp c b => setApr s c b

/-- State established by the constructor: `aprBps` set (the constructor
requires it `<= 5000`), `nextId = 0`, empty mappings, owner = deployer. -/
def initState (admin : Address) (bps : Nat) : PoolState :=
  { owner := admin, aprBps := bps, nextId := 0
    positions := fun _ => defaultPosition, events := [] }

/-- States reachable from a constructor state by successful transactions. -/
inductive Reachable : PoolState → Prop where
  | init (admin : Address) (bps : Nat) (h : bps ≤ 5000) : Reachable (initState admin bps)
  | step (s s' : PoolState) (op : Op) (hs : Reachable s) (h : applyOp s op = .ok s') :
      Reachable s'

/-! ### Concrete states used by the witnesses -/

/-- A pool holding one active position: id 1, principal 1000000, start 100. -/
def poolA : PoolState :=
  { owner := 7, aprBps := 500, nextId := 1
    positions := fun i => if i = 1 then ⟨1000000, 100, true⟩ else defaultPosition
    events := [] }

/-! ### C3: interest formula -/

/-- C3: for an active position (with the elapsed time nonnegative and the
products inside `uint256` range), `accrued` returns exactly
`floor(principal * rateBps * elapsedSeconds / (31536000 * 10000))`; for a
missing or closed position (`active = false` either way) it fails with
`NotActive`. -/
theorem accrued_formula (s : PoolState) (now tokenId : Nat) :
    ((s.positions tokenId).active = true →
      (s.positions tokenId).start ≤ now →
      (s.positions tokenId).principal * s.aprBps < U256 →
      (s.positions tokenId).principal * s.aprBps * (now - (s.positions tokenId).start) < U256 →
      accrued s now tokenId =
        .ok ((s.positions tokenId).principal * s.aprBps *
          (now - (s.positions tokenId).start) / (31536000 * 10000)))
    ∧ ((s.positions tokenId).active = false →
        accrued s now tokenId = .error .notActive) := by
  constructor
  · intro hact hle h1 h2
    have h1' : ¬ U256 ≤ (s.positions tokenId).principal * s.aprBps := Nat.not_le.mpr h1
    have h2' : ¬ U256 ≤ (s.positions tokenId).principal * s.aprBps *
        (now - (s.positions tokenId).start) := Nat.not_le.mpr h2
    simp [accrued, hact, Nat.not_lt.mpr hle, h1', h2', yearBps]
  · intro hact
    simp [accrued, hact]

/-- C3 witness: rate 500 bps, principal 1000000, start 100, queried at
time 31536100 (elapsed 31536000 s = 365 days): the interest is exactly 50000. -/
theorem accrued_formula_witness : accrued poolA 31536100 1 = .ok 50000 := by
  have h := (accrued_formula poolA 31536100 1).1 rfl (by norm_num [poolA])
    (by norm_num [poolA, U256]) (by norm_num [poolA, U256])
  rw [h]
  norm_num [poolA]

/-! ### C10: clock regression -/

/-- C10: if the observed clock is strictly earlier than the stored
`start`, `accrued` on an active position aborts with the checked-subtraction
underflow panic — it does not return `0` or a wrapped value. -/
theorem accrued_clock_regression (s : PoolState) (now tokenId : Nat)
    (hact : (s.positions tokenId).active = true)
    (hlt : now < (s.positions tokenId).start) :
    accrued s now tokenId = .error .arithUnderflow := by
  simp [accrued, hact, hlt]

/-- C10 witness: position 1 of `poolA` starts at 100; querying at time 50
aborts with the underflow panic. -/
theorem accrued_clock_regression_witness :
    accrued poolA 50 1 = .error .arithUnderflow :=
  accrued_clock_regression poolA 50 1 rfl (by norm_num [poolA])

/-! ### The withdraw defect

After `withdraw` stores `p.active = false`, it computes the payout by calling
`accrued(tokenId)`, whose first statement is `require(p.active, "!active")`
against the same (now updated) storage. That `require` therefore always fails,
so `withdraw` can never succeed. -/

/-- Reading the closed position back gives the same fields with `active := false`. -/
theorem closePosition_positions_self (s : PoolState) (tokenId : Nat) :
    (closePosition s tokenId).positions tokenId =
      { s.positions tokenId with active := false } := by
  simp [closePosition]

/-- Helper shared by several theorems: `withdraw` never returns `ok` —
it errors on every input. -/
theorem withdraw_isError (s : PoolState) (caller : Address) (now tokenId : Nat)
    (certOwner : Except Unit Address) (burnOk transferOk : Bool) :
    ∃ e, withdraw s caller now tokenId certOwner burnOk transferOk = .error e := by
  cases hact : (s.positions tokenId).active with
  | false => exact ⟨.notActive, by simp [withdraw, hact]⟩
  | true =>
    cases certOwner with
    | error u => exact ⟨.externalCallFailed, by simp [withdraw, hact]⟩
    | ok o =>
      by_cases ho : o = caller
      · subst ho
        refine ⟨.notActive, ?_⟩
        have hacc : accrued (closePosition s tokenId) now tokenId = .error .notActive := by
          simp [accrued, closePosition_positions_self]
        simp [withdraw, hact, hacc]
      · exact ⟨.notOwner, by simp [withdraw, hact, ho]⟩

/-! ### C1: the withdraw success path -/

/-- C1: the claim's success scenario never happens. Even when the position is
active, the certificate is owned by the caller (`certOwner = .ok caller`) and
both the burn and the outbound transfer would succeed, `withdraw` reverts
with `NotActive`: it closes the position and then computes the payout through
`accrued`, which `require`s the position to still be active. -/
theorem withdraw_reverts_on_active_position (s : PoolState) (caller : Address)
    (now tokenId : Nat) (burnOk transferOk : Bool)
    (hact : (s.positions tokenId).active = true) :
    withdraw s caller now tokenId (.ok caller) burnOk transferOk = .error .notActive := by
  have hacc : accrued (closePosition s tokenId) now tokenId = .error .notActive := by
    simp [accrued, closePosition_positions_self]
  simp [withdraw, hact, hacc]

/-- C1 witness: the concrete failing input — `poolA`'s active position 1,
called by the certificate holder 9 at time 31536100 with burn and transfer
succeeding — still reverts with `NotActive`. -/
theorem withdraw_reverts_on_active_position_witness :
    withdraw poolA 9 31536100 1 (.ok 9) true true = .error .notActive :=
  withdraw_reverts_on_active_position poolA 9 31536100 1 true true rfl

/-! ### C2: reentrancy scenario -/

/-- C2: the claim's scenario is unreachable and its conclusion false. For an
active position with nonzero elapsed time, a withdrawal never reaches its
fund-transfer step (so no nested call can ever be triggered by it), and the
outer call never completes: `withdraw` is not `ok` for any certificate-owner
oracle and any burn/transfer outcome. -/
theorem withdraw_never_completes (s : PoolState) (caller : Address)
    (now tokenId : Nat) (certOwner : Except Unit Address) (burnOk transferOk : Bool)
    (s' : PoolState)
    (_hact : (s.positions tokenId).active = true)
    (_helapsed : (s.positions tokenId).start < now) :
    withdraw s caller now tokenId certOwner burnOk transferOk ≠ .ok s' := by
  obtain ⟨e, he⟩ := withdraw_isError s caller now tokenId certOwner burnOk transferOk
  simp [he]

/-- C2 witness: on `poolA`'s active position 1 (elapsed time 31536000 > 0),
the certificate holder's withdrawal does not complete. -/
theorem withdraw_never_completes_witness :
    withdraw poolA 9 31536100 1 (.ok 9) true true ≠ .ok poolA :=
  withdraw_never_completes poolA 9 31536100 1 (.ok 9) true true poolA rfl
    (by norm_num [poolA])

/-! ### C4: per-position immutability -/

/-- C4: along any successful transaction from a reachable state, every
already-allocated position id (`id ≤ nextId`; ids are allocated as
`1, 2, ...` by `++nextId`) keeps its `principal` and `start` unchanged, and
its `active` flag can only move from `true` to `false` (never back): closed
stays closed, so the per-position state machine is
nonexistent → active → closed with `closed` terminal. -/
theorem position_immutable_after_creation (s : PoolState) (_hs : Reachable s)
    (op : Op) (s' : PoolState) (h : applyOp s op = .ok s')
    (id : Nat) (hid : id ≤ s.nextId) :
    (s'.positions id).principal = (s.positions id).principal ∧
    (s'.positions id).start = (s.positions id).start ∧
    ((s'.positions id).active = true → (s.positions id).active = true) := by
  cases op with
  | depositOp c a n mo =>
    by_cases ha : a = 0
    · simp [applyOp, depositWithURI, ha, Except.map] at h
    · by_cases hov : U256 ≤ s.nextId + 1
      · simp [applyOp, depositWithURI, ha, hov, Except.map] at h
      · by_cases hmo : mo = false
        · simp [applyOp, depositWithURI, ha, hov, hmo, Except.map] at h
        · have hne : id ≠ s.nextId + 1 := by omega
          simp [applyOp, depositWithURI, ha, hov, hmo, Except.map] at h
          subst h
          simp [mintPosition, hne]
  | withdrawOp c n t co bo tr =>
    obtain ⟨e, he⟩ := withdraw_isError s c n t co bo tr
    simp [applyOp, he] at h
  | setAprOp c b =>
    by_cases hc : c = s.owner
    · by_cases hb : 5000 < b
      · simp [applyOp, setApr, hc, hb] at h
      · simp [applyOp, setApr, hc, hb] at h
        subst h
        simp
    · simp [applyOp, setApr, hc] at h

/-- The pool state after the administrator of `initState 7 500` successfully
lowers the rate to 300. -/
def c4Final : PoolState :=
  { owner := 7, aprBps := 300, nextId := 0
    positions := fun _ => defaultPosition
    events := [.aprUpdated 500 300] }

/-- C4 witness: a concrete reachable state, a concrete successful operation
(`setApr 300` by the admin), and position id 0: all its fields are preserved. -/
theorem position_immutable_after_creation_witness :
    (c4Final.positions 0).principal = ((initState 7 500).positions 0).principal ∧
    (c4Final.positions 0).start = ((initState 7 500).positions 0).start ∧
    ((c4Final.positions 0).active = true → ((initState 7 500).positions 0).active = true) :=
  position_immutable_after_creation (initState 7 500)
    (Reachable.init 7 500 (by norm_num)) (.setAprOp 7 300) c4Final rfl 0 (by norm_num [initState])

/-! ### C5: payout is principal plus interest -/

/-- C5: whenever `accrued` succeeds (and the checked sum stays in range),
`payoutOf` returns `principal + accruedInterest`; `payoutOf` fails with
`NotActive` exactly when `accrued` does; and immediately after a valid
deposit, with zero elapsed time, `payoutOf` returns exactly the recorded
principal. -/
theorem payout_spec (s : PoolState) (now tokenId : Nat) :
    (∀ intr, accrued s now tokenId = .ok intr →
      (s.positions tokenId).principal + intr < U256 →
      payoutOf s now tokenId = .ok ((s.positions tokenId).principal + intr)) ∧
    (payoutOf s now tokenId = .error .notActive ↔
      accrued s now tokenId = .error .notActive) ∧
    (∀ (caller : Address) (a : Nat) (mintOk : Bool) (s' : PoolState) (id : Nat),
      depositWithURI s caller a now mintOk = .ok (s', id) →
      now < U64 → s.aprBps ≤ 5000 →
      payoutOf s' now id = .ok ((s'.positions id).principal)) := by
  refine ⟨?_, ?_, ?_⟩
  · intro intr hacc hsum
    have hact : (s.positions tokenId).active = true := by
      by_contra hne
      have hf : (s.positions tokenId).active = false := by
        cases h : (s.positions tokenId).active <;> simp_all
      simp [accrued, hf] at hacc
    simp [payoutOf, hact, hacc, Nat.not_le.mpr hsum]
  · cases hact : (s.positions tokenId).active with
    | false => simp [payoutOf, accrued, hact]
    | true =>
      have ha : accrued s now tokenId ≠ .error .notActive := by
        unfold accrued
        rw [hact]
        split
        · simp_all
        · split
          · simp
          · split
            · simp
            · split <;> simp
      have hp : payoutOf s now tokenId ≠ .error .notActive := by
        cases hc : accrued s now tokenId with
        | error e =>
          have he : e ≠ .notActive := fun he => ha (he ▸ hc)
          simp [payoutOf, hact, hc, he]
        | ok intr =>
          by_cases hov : U256 ≤ (s.positions tokenId).principal + intr
          · simp [payoutOf, hact, hc, hov]
          · simp [payoutOf, hact, hc, hov]
      exact ⟨fun h => absurd h hp, fun h => absurd h ha⟩
  · intro caller a mintOk s' id hdep hnow hbps
    by_cases ha : a = 0
    · simp [depositWithURI, ha] at hdep
    · by_cases hov : U256 ≤ s.nextId + 1
      · simp [depositWithURI, ha, hov] at hdep
      · by_cases hmo : mintOk = false
        · simp [depositWithURI, ha, hov, hmo] at hdep
        · simp [depositWithURI, ha, hov, hmo] at hdep
          obtain ⟨hs', hid⟩ := hdep
          subst hs'
          subst hid
          have hstart : now % U64 = now := Nat.mod_eq_of_lt hnow
          have hP : a % U128 < U128 := Nat.mod_lt _ (by norm_num [U128])
          have h1 : (a % U128) * s.aprBps < U256 := by
            calc (a % U128) * s.aprBps ≤ U128 * 5000 :=
                  Nat.mul_le_mul (le_of_lt hP) hbps
              _ < U256 := by norm_num [U128, U256]
          have h2 : a % U128 < U256 := lt_trans hP (by norm_num [U128, U256])
          have hU : U256 ≠ 0 := by norm_num [U256]
          simp [payoutOf, accrued, mintPosition, hstart, Nat.not_le.mpr h1,
            Nat.not_le.mpr h2, hU]

/-- C5 witness: the pool state after a successful `deposit` of 1000 into
`poolA` at time 200 (position id 2). -/
def poolA2 : PoolState :=
  { mintPosition poolA 1000 200 with events := poolA.events ++ [.deposited 2 9 1000] }

/-- C5 witness: immediately after that deposit, the payout of position 2 is
exactly its recorded principal. -/
theorem payout_spec_witness :
    payoutOf poolA2 200 2 = .ok ((poolA2.positions 2).principal) :=
  (payout_spec poolA 200 2).2.2 9 1000 true poolA2 2 rfl
    (by norm_num [U64]) (by norm_num [poolA])

/-! ### C6: zero deposit -/

/-- C6: `deposit` with `msg.value = 0` fails with `ZeroAmount`
(`require(amount > 0)` runs before `++nextId`, and the revert discards every
write anyway), and a subsequent successful deposit still returns
`s.nextId + 1`, the same sequential id it would have received had the failed
call never happened. -/
theorem deposit_zero_rejected (s : PoolState) (c1 c2 : Address) (now1 now2 a : Nat)
    (mo : Bool) (ha : 0 < a) (hov : s.nextId + 1 < U256) :
    depositWithURI s c1 0 now1 mo = .error .zeroAmount ∧
    (depositWithURI s c2 a now2 true).map Prod.snd = .ok (s.nextId + 1) := by
  constructor
  · simp [depositWithURI]
  · simp [depositWithURI, Nat.pos_iff_ne_zero.mp ha, Nat.not_le.mpr hov, Except.map]

/-- C6 witness: on `poolA` (whose `nextId` is 1), `deposit(0)` fails with
`ZeroAmount` and the next successful deposit gets id 2. -/
theorem deposit_zero_rejected_witness :
    depositWithURI poolA 9 0 100 true = .error .zeroAmount ∧
    (depositWithURI poolA 9 1000 100 true).map Prod.snd = .ok 2 :=
  deposit_zero_rejected poolA 9 9 100 100 1000 true (by norm_num)
    (by norm_num [poolA, U256])

/-! ### C7: rate updates -/

/-- C7: `setApr` called by the administrator with `bps > 5000` fails with
`RateTooHigh` (revert: rate unchanged, no event); called by the
administrator with `bps ≤ 5000` it updates the rate and appends the
rate-change event recording the old and the new value; called by anyone
else it fails with `Unauthorized` (the `onlyOwner` modifier runs first). -/
theorem setApr_spec (s : PoolState) (caller : Address) (bps : Nat) :
    (caller = s.owner → 5000 < bps → setApr s caller bps = .error .aprTooHigh) ∧
    (caller = s.owner → bps ≤ 5000 →
      setApr s caller bps =
        .ok { s with aprBps := bps, events := s.events ++ [.aprUpdated s.aprBps bps] }) ∧
    (caller ≠ s.owner → setApr s caller bps = .error .callerNotAdmin) := by
  refine ⟨?_, ?_, ?_⟩
  · intro hc hb
    simp [setApr, hc, hb]
  · intro hc hb
    simp [setApr, hc, Nat.not_lt.mpr hb]
  · intro hc
    simp [setApr, hc]

/-- C7 witness: on `poolA` (admin 7, rate 500): `setApr(6000)` by the admin
fails with `RateTooHigh`; `setApr(300)` by the admin succeeds and logs
`AprUpdated(500, 300)`; `setApr(300)` by address 8 fails with `Unauthorized`. -/
theorem setApr_spec_witness :
    setApr poolA 7 6000 = .error .aprTooHigh ∧
    setApr poolA 7 300 =
      .ok { poolA with aprBps := 300, events := [.aprUpdated 500 300] } ∧
    setApr poolA 8 300 = .error .callerNotAdmin :=
  ⟨(setApr_spec poolA 7 6000).1 rfl (by norm_num),
   (setApr_spec poolA 7 300).2.1 rfl (by norm_num),
   (setApr_spec poolA 8 300).2.2 (by norm_num [poolA])⟩

/-! ### C9: 128-bit truncation of the deposited amount -/

/-- C9: `deposit` stores `uint128(amount)`, i.e. `amount % 2^128`, with no
check and no error: for any amount (`≥ 2^128` included, as long as the
amount is what the claim ranges over) the deposit succeeds and the recorded
principal is `amount % 2^128`, which is strictly less than the amount
actually deposited. -/
theorem deposit_truncates_to_uint128 (s : PoolState) (c : Address) (a now : Nat)
    (ha : U128 ≤ a) (hov : s.nextId + 1 < U256) :
    (depositWithURI s c a now true).map (fun r => (r.1.positions r.2).principal) =
      .ok (a % U128) ∧ a % U128 < a := by
  have ha0 : a ≠ 0 :=
    Nat.pos_iff_ne_zero.mp (lt_of_lt_of_le (by norm_num [U128]) ha)
  constructor
  · simp [depositWithURI, ha0, Nat.not_le.mpr hov, Except.map, mintPosition]
  · exact lt_of_lt_of_le (Nat.mod_lt _ (by norm_num [U128])) ha

/-- C9 witness: depositing `2^128 + 5` into `poolA` succeeds and records a
principal of `(2^128 + 5) % 2^128` (= 5), strictly less than the deposit. -/
theorem deposit_truncates_to_uint128_witness :
    (depositWithURI poolA 9 (U128 + 5) 0 true).map
        (fun r => (r.1.positions r.2).principal) = .ok ((U128 + 5) % U128) ∧
    (U128 + 5) % U128 < U128 + 5 :=
  deposit_truncates_to_uint128 poolA 9 (U128 + 5) 0 (Nat.le_add_right _ 5)
    (by norm_num [poolA, U256])

end SavingsPool

namespace ReceiptNFT

open SavingsPool (Address)

/-- Revert reasons of `ReceiptNFT.mint`: the `NotPool()` custom error of the
`onlyPool` modifier, and the OpenZeppelin v4 `_safeMint` requires
(`"ERC721: mint to the zero address"`, `"ERC721: token already minted"`,
`"ERC721: transfer to non ERC721Receiver implementer"`). -/
inductive NftErr where
  | notPool
  | mintToZero
  | tokenAlreadyMinted
  | receiverRejected
  deriving Repr, DecidableEq

/-- Storage of `ReceiptNFT`: the `Ownable` owner, the bound `pool` address,
the ERC-721 `_owners` mapping (`none` models `address(0)`, i.e. the token
does not exist) and the `ERC721URIStorage` `_tokenURIs` mapping. -/
structure NftState where
  owner : Address
  pool : Address
  holders : Nat → Option Address
  tokenURIs : Nat → String

/-- `mint(to, tokenId, uri)`: the `onlyPool` modifier
(`msg.sender != pool → revert NotPool()`), then `_safeMint(dest, tokenId)`
(OZ v4 `_mint` requires `to != address(0)` and `!_exists(tokenId)`, then
writes `_owners[tokenId] = dest`, then `_safeMint` checks the receiver —
abstracted by `accepts`, always `true` for an externally owned account),
then `if (bytes(uri).length != 0) _setTokenURI(tokenId, uri)`. -/
def mintReceipt (s : NftState) (caller dest : Address) (tokenId : Nat) (uri : String)
    (accepts : Bool) : Except NftErr NftState :=
  if caller ≠ s.pool then .error .notPool
  else if dest = 0 then .error .mintToZero
  else if (s.holders tokenId).isSome then .error .tokenAlreadyMinted
  else if accepts = false then .error .receiverRejected
  else if uri = "" then
    .ok { s with holders := fun i => if i = tokenId then some dest else s.holders i }
  else
    .ok { s with
          holders := fun i => if i = tokenId then some dest else s.holders i
          tokenURIs := fun i => if i = tokenId then uri else s.tokenURIs i }

/-! ### C8: mint access control and id uniqueness -/

/-- C8: `mint` fails with `Unauthorized` (`NotPool`) for every caller other
than the bound pool address (the revert leaves state unchanged); for the
bound caller (and a nonzero recipient) it fails with `DuplicateId`
(`"token already minted"`) when the id already has a holder; otherwise (with
the recipient accepting) it creates the holder entry and, when the metadata
string is non-empty, the metadata entry. -/
theorem mintReceipt_spec (s : NftState) (caller dest : Address) (tokenId : Nat)
    (uri : String) (accepts : Bool) :
    (caller ≠ s.pool → mintReceipt s caller dest tokenId uri accepts = .error .notPool) ∧
    (caller = s.pool → dest ≠ 0 → (s.holders tokenId).isSome →
      mintReceipt s caller dest tokenId uri accepts = .error .tokenAlreadyMinted) ∧
    (caller = s.pool → dest ≠ 0 → s.holders tokenId = none → accepts = true →
      ∃ s', mintReceipt s caller dest tokenId uri accepts = .ok s' ∧
        s'.holders tokenId = some dest ∧ (uri ≠ "" → s'.tokenURIs tokenId = uri)) := by
  refine ⟨?_, ?_, ?_⟩
  · intro hc
    simp [mintReceipt, hc]
  · intro hc ht hh
    simp [mintReceipt, hc, ht, hh]
  · intro hc ht hh hacc
    subst hc
    subst hacc
    by_cases hu : uri = ""
    · refine ⟨{ s with
          holders := fun i => if i = tokenId then some dest else s.holders i }, ?_, ?_, ?_⟩
      · simp [mintReceipt, ht, hh, hu]
      · simp
      · intro h
        exact absurd hu h
    · refine ⟨{ s with
          holders := fun i => if i = tokenId then some dest else s.holders i
          tokenURIs := fun i => if i = tokenId then uri else s.tokenURIs i }, ?_, ?_, ?_⟩
      · simp [mintReceipt, ht, hh, hu]
      · simp
      · intro h
        simp

/-- A receipt contract bound to pool address 3, with token 1 already held
by address 9. -/
def nftA : NftState :=
  { owner := 7, pool := 3
    holders := fun i => if i = 1 then some 9 else none
    tokenURIs := fun _ => "" }

/-- C8 witness: on `nftA`, minting token 1 again (by the pool) fails with
the duplicate-id error; a non-pool caller fails with `NotPool`; minting the
fresh token 2 succeeds, records holder 5 and the non-empty metadata. -/
theorem mintReceipt_spec_witness :
    mintReceipt nftA 3 5 1 "u" true = .error .tokenAlreadyMinted ∧
    mintReceipt nftA 4 5 2 "u" true = .error .notPool ∧
    (∃ s', mintReceipt nftA 3 5 2 "u" true = .ok s' ∧
      s'.holders 2 = some 5 ∧ ("u" ≠ "" → s'.tokenURIs 2 = "u")) :=
  ⟨(mintReceipt_spec nftA 3 5 1 "u" true).2.1 rfl (by norm_num) (by simp [nftA]),
   (mintReceipt_spec nftA 4 5 2 "u" true).1 (by norm_num [nftA]),
   (mintReceipt_spec nftA 3 5 2 "u" true).2.2 rfl (by norm_num) (by simp [nftA]) rfl⟩

end ReceiptNFT
